import Mathlib

/-!
Verification of the tabular-import core of an MCP server for MS Access, Excel
and CSV files.  The embedding follows the Python source:

* merged-cell resolver `FillMergedCells` and the `ImportExcel` pipeline
  (tools_excel.py),
* the `ImportCSV` pipeline (tools_csv.py),
* the connection registry `Connect` (src/database.py and server.py).

Cells are modelled as `Option` values (`none` is the pandas NaN/null marker),
pandas DataFrames as `Frame` (labelled rows and columns over a cell function),
the relational store reachable through `DataFrame.to_sql(..., if_exists =
append)` as an association list from table name to table contents, and the
connection registry as an association list from key to connection record.
-/

namespace AccessMcp

variable {α : Type}

/-- A merged cell range of a worksheet, converted to 0-indexed sheet
coordinates exactly as in tools_excel.py lines 130-133 (openpyxl reports
min_row, max_row, min_col, max_col 1-indexed; the code subtracts one). -/
structure MergedRange where
  topRow : Nat
  bottomRow : Nat
  leftCol : Nat
  rightCol : Nat
deriving DecidableEq, Repr

/-- Sheet coordinate (r, c) lies inside the rectangle of the merged range. -/
def MergedRange.inRect (mr : MergedRange) (r c : Nat) : Prop :=
  mr.topRow ≤ r ∧ r ≤ mr.bottomRow ∧ mr.leftCol ≤ c ∧ c ≤ mr.rightCol

instance (mr : MergedRange) (r c : Nat) : Decidable (mr.inRect r c) :=
  inferInstanceAs (Decidable (_ ∧ _ ∧ _ ∧ _))

/-- Two merged ranges occupy disjoint rectangles: they are separated either by
rows or by columns.  Real worksheets only produce pairwise separated merged
ranges (a spreadsheet cell belongs to at most one merge). -/
def MergedRange.SeparateFrom (a b : MergedRange) : Prop :=
  a.bottomRow < b.topRow ∨ b.bottomRow < a.topRow ∨
  a.rightCol < b.leftCol ∨ b.rightCol < a.leftCol

instance (a b : MergedRange) : Decidable (a.SeparateFrom b) :=
  inferInstanceAs (Decidable (_ ∨ _ ∨ _ ∨ _))

/-- A pandas DataFrame as used by the import pipeline: a list of row labels
(`df.index`), a list of column labels (`df.columns`), and the cell contents,
read through the labels (`df.loc[r, c]`).  During the spreadsheet pipeline
both label lists hold sheet-native 0-indexed coordinates.  Cells at label
pairs not present in the lists are irrelevant; the pipeline constructs them
as `none`. -/
structure Frame (α : Type) where
  rowLabels : List Nat
  colLabels : List Nat
  data : Nat → Nat → Option α

/-- One iteration of the loop of FillMergedCells (tools_excel.py lines
127-153) for a single merged range: skip the range when its anchor (top-left)
cell is not at a current row/column label (line 136) or holds a null value
(line 141); otherwise write the anchor value to every cell of the rectangle
whose row and column labels are present (lines 145-153). -/
def fillOne (df : Frame α) (mr : MergedRange) : Frame α :=
  if mr.topRow ∈ df.rowLabels ∧ mr.leftCol ∈ df.colLabels then
    match df.data mr.topRow mr.leftCol with
    | none => df
    | some v =>
      { df with data := fun r c =>
          if mr.inRect r c ∧ r ∈ df.rowLabels ∧ c ∈ df.colLabels then some v
          else df.data r c }
  else df

/-- FillMergedCells (tools_excel.py lines 121-155): fold of `fillOne` over the
merged ranges of the worksheet, in the order the worksheet lists them. -/
def FillMergedCells (ranges : List MergedRange) (df : Frame α) : Frame α :=
  ranges.foldl fillOne df

/-- The write condition of one FillMergedCells iteration, read on a frame df:
the range is not skipped (anchor at present labels, anchor value non-null,
tools_excel.py lines 136-142) and the cell (r, c) is inside the rectangle at
present labels (lines 145-150). -/
def covers (df : Frame α) (mr : MergedRange) (r c : Nat) : Bool :=
  decide (mr.inRect r c) && decide (r ∈ df.rowLabels) &&
  decide (c ∈ df.colLabels) && decide (mr.topRow ∈ df.rowLabels) &&
  decide (mr.leftCol ∈ df.colLabels) && (df.data mr.topRow mr.leftCol).isSome

/-- The dynamically typed rowsToSkip parameter of ImportExcel (tools_excel.py
line 21): either a count of leading rows to drop or an explicit list of
0-indexed row positions to drop. -/
inductive RowSkip where
  | count (n : Nat)
  | positions (s : List Nat)
deriving DecidableEq, Repr

/-- The skiprows filter of pandas read_excel as invoked by ImportExcel
(tools_excel.py line 84): an integer drops that many leading rows, a list
drops the rows at the listed 0-indexed positions. -/
def applySkiprows (rows : List (List (Option String))) :
    RowSkip → List (List (Option String))
  | .count n => rows.drop n
  | .positions s =>
      rows.enum.filterMap fun p => if p.1 ∈ s then none else some p.2

/-- The row-relabeling step of ImportExcel (tools_excel.py lines 94-97):
after pandas has dropped the skipped rows, the DataFrame index is rebuilt to
hold sheet-native 0-indexed row numbers.  A count n yields
range(n, len + n); an explicit list yields the x in range(len + len(s))
with x not in s, in ascending order. -/
def reindexRows (rowsToSkip : RowSkip) (len : Nat) : List Nat :=
  match rowsToSkip with
  | .count n => (List.range len).map (fun k => k + n)
  | .positions s => (List.range (len + s.length)).filter fun x => decide (x ∉ s)

/-- Error kinds surfaced by the import pipelines (each one is raised as a
FastMCPError with a human-readable message in the source; the constructor
names follow the specification's error vocabulary). -/
inductive ImportError where
  | EmptySource
  | MalformedSource
  | ColumnCountMismatch
  | SpreadsheetImportFailed
deriving DecidableEq, Repr

/-- A relational table as materialized by DataFrame.to_sql: column names and
a list of rows (each row one optional value per column). -/
structure Table where
  header : List String
  rows : List (List (Option String))
deriving DecidableEq, Repr

/-- The tables of one database, keyed by table name (unique keys). -/
abbrev Store := List (String × Table)

/-- Look a table up by name. -/
def lookupTable : Store → String → Option Table
  | [], _ => none
  | p :: s, nm => if p.1 == nm then some p.2 else lookupTable s nm

/-- DataFrame.to_sql(name, engine, index = False, if_exists = append) as
called at tools_csv.py line 67 and tools_excel.py line 112: append the rows
to the named table, creating the table with the frame's column names when it
does not exist; an existing table keeps its prior column names and rows. -/
def to_sql : Store → String → List String → List (List (Option String)) → Store
  | [], nm, hdr, rows => [(nm, ⟨hdr, rows⟩)]
  | p :: s, nm, hdr, rows =>
    if p.1 == nm then (p.1, ⟨p.2.header, p.2.rows ++ rows⟩) :: s
    else p :: to_sql s nm hdr rows

/-- Split one text line at every occurrence of the separator character
(pandas comma tokenization in the default path; quoting is not exercised by
the inputs considered here). -/
def splitOnChar (sep : Char) : List Char → List (List Char)
  | [] => [[]]
  | ch :: rest =>
    let r := splitOnChar sep rest
    if ch = sep then [] :: r
    else
      match r with
      | [] => [[ch]]
      | f :: fs => (ch :: f) :: fs

/-- The comma-separated fields of one CSV line. -/
def splitFields (s : String) : List String :=
  (splitOnChar ',' s.toList).map fun cs => String.mk cs

/-- pandas read_csv on the lines of a CSV file, for the default-parameter
path taken by ImportCSV (tools_csv.py lines 52-60 with columnsToImport,
dbColumnNames and dtype left at None: header row 0, comma delimiter): blank
lines are skipped, the first remaining line is the header, the remaining
lines are the data rows; when no line remains, pandas raises EmptyDataError,
modelled as none.  A file is modelled as the list of its lines. -/
def read_csv (lines : List String) :
    Option (List String × List (List (Option String))) :=
  match lines.filter (fun l => !(l == "")) with
  | [] => none
  | h :: t =>
    some (splitFields h, t.map fun l => (splitFields l).map fun f => some f)

/-- ImportCSV (tools_csv.py lines 18-71; identically src/server.py lines
192-219) after the connection has been resolved: parse the file with
read_csv and append the parsed rows; pandas EmptyDataError is reported as
EmptySource (the FastMCPError at line 62, message: no data found in CSV
file, table has not been created) and the store is left untouched, since the
raise happens before df.to_sql runs. -/
def ImportCSV (store : Store) (dbTableName : String) (lines : List String) :
    Option ImportError × Store :=
  match read_csv lines with
  | none => (some .EmptySource, store)
  | some (hdr, rows) => (none, to_sql store dbTableName hdr rows)

/-- Greatest row width of the raw sheet: pandas read_excel pads shorter rows
with NaN up to the widest row. -/
def numColsOf (sheet : List (List (Option String))) : Nat :=
  sheet.foldr (fun row m => max row.length m) 0

/-- The usecols filter of pandas read_excel as invoked by ImportExcel
(tools_excel.py lines 85-86): None keeps every column, a list keeps the
listed 0-indexed columns, read in document order; together with
names=columnsToImport this labels the kept columns with their sheet-native
indices. -/
def selectedCols (numCols : Nat) : Option (List Nat) → List Nat
  | none => List.range numCols
  | some l => (List.range numCols).filter fun c => decide (c ∈ l)

/-- The DataFrame produced by read_excel plus the re-indexing step: row
labels, column labels, and cell access mapping the i-th surviving row to the
i-th row label. -/
def sheetFrame (survivors : List (List (Option String)))
    (labels cols : List Nat) : Frame String :=
  ⟨labels, cols, fun r c =>
    match labels.findIdx? (fun x => x == r) with
    | none => none
    | some i =>
      if c ∈ cols then ((survivors[i]?).bind fun row => row[c]?).join
      else none⟩

/-- The precondition check of ImportExcel (tools_excel.py lines 74-77):
with columnsToImport given, the database column names must be as many as the
imported columns. -/
def excelCondMismatch (dbColumnNames : List String) :
    Option (List Nat) → Bool
  | some l => decide (dbColumnNames.length ≠ l.length)
  | none => false

/-- The body of the try-block of ImportExcel (tools_excel.py lines 79-112):
read the sheet (header None, skiprows, usecols), rebuild the index with
sheet-native row numbers (lines 94-97, modelled by reindexRows), optionally
fill merged cells (lines 100-102), rename the columns to dbColumnNames
(line 105) and reset the index (line 109), yielding the dense row list that
is appended.  The two pandas failure modes reachable in this fragment — an
index assignment whose length does not match the frame, and a column
renaming whose length does not match the selected columns — yield none,
which ImportExcel reports as the wrapped error of lines 117-118. -/
def excelFrameRows (dbColumnNames : List String)
    (sheet : List (List (Option String))) (rs : RowSkip)
    (ci : Option (List Nat)) (fill : Bool) (merged : List MergedRange) :
    Option (List (List (Option String))) :=
  let survivors := applySkiprows sheet rs
  let labels := reindexRows rs survivors.length
  let cols := selectedCols (numColsOf sheet) ci
  if labels.length ≠ survivors.length then none
  else if dbColumnNames.length ≠ cols.length then none
  else
    let df0 := sheetFrame survivors labels cols
    let df1 := if fill then FillMergedCells merged df0 else df0
    some (df1.rowLabels.map fun r => df1.colLabels.map fun c => df1.data r c)

/-- ImportExcel (tools_excel.py lines 12-118; identically src/server.py lines
223-329) after the connection has been resolved: the column-count precheck
(lines 74-77) raises before the file is ever opened; any failure inside the
try-block leaves the store untouched because df.to_sql (line 112) is its
last step; on success the parsed rows are appended. -/
def ImportExcel (store : Store) (dbTableName : String)
    (dbColumnNames : List String) (sheet : List (List (Option String)))
    (rs : RowSkip) (ci : Option (List Nat)) (fill : Bool)
    (merged : List MergedRange) : Option ImportError × Store :=
  if excelCondMismatch dbColumnNames ci then
    (some .ColumnCountMismatch, store)
  else
    match excelFrameRows dbColumnNames sheet rs ci fill merged with
    | none => (some .SpreadsheetImportFailed, store)
    | some rows => (none, to_sql store dbTableName dbColumnNames rows)

/-- Error kinds surfaced by Connect (each a FastMCPError in the source). -/
inductive ConnectError where
  | DuplicateKey
  | UnsupportedSource
  | ConnectionFailed
deriving DecidableEq, Repr

/-- DBConnection (src/database.py lines 22-28; server.py lines 46-52) without
the opaque SQLAlchemy engine object: the caller-chosen key and the database
file path (empty for an in-memory database). -/
structure DBConnection where
  key : String
  path : String
deriving DecidableEq, Repr

/-- The connections dictionary stored on the server object, keyed by
connection key (Python dict: unique keys, insertion ordered). -/
abbrev Registry := List (String × DBConnection)

/-- Look a connection up by key. -/
def lookupConn : Registry → String → Option DBConnection
  | [], _ => none
  | p :: s, k => if p.1 == k then some p.2 else lookupConn s k

/-- Connect (src/database.py lines 80-128; identically, minus the notes step,
server.py lines 107-142).  probeOk is the outcome of creating the SQLAlchemy
engine and running the SELECT 1 liveness probe (lines 107-111), which
depends on the external database file.  The optional notes read of
database.py lines 118-123 is omitted: ReadNotes (tools_notes.py lines 18-47)
wraps every read failure in a FastMCPError, exactly the class the inner
try/except catches into the returned message, so the notes step changes
neither the registry nor the success of the call.  The connection is stored
(line 114) only after the probe has succeeded, and every raise happens
before the store. -/
def Connect (reg : Registry) (key databasePath : String) (probeOk : Bool) :
    Option ConnectError × Registry :=
  if reg.any (fun p => p.1 == key) then (some .DuplicateKey, reg)
  else if databasePath == "" || databasePath.endsWith ".mdb" ||
      databasePath.endsWith ".accdb" then
    if probeOk then (none, reg ++ [(key, ⟨key, databasePath⟩)])
    else (some .ConnectionFailed, reg)
  else (some .UnsupportedSource, reg)

theorem MergedRange.SeparateFrom.symm {a b : MergedRange}
    (h : a.SeparateFrom b) : b.SeparateFrom a := by
  rcases h with h | h | h | h <;> unfold MergedRange.SeparateFrom <;> tauto

theorem MergedRange.SeparateFrom.not_both_inRect {a b : MergedRange}
    (h : a.SeparateFrom b) (r c : Nat) : ¬ (a.inRect r c ∧ b.inRect r c) := by
  rintro ⟨⟨h1, h2, h3, h4⟩, ⟨g1, g2, g3, g4⟩⟩
  rcases h with h | h | h | h <;> omega

theorem MergedRange.SeparateFrom.anchor_not_inRect {a b : MergedRange}
    (h : a.SeparateFrom b) (hr : b.topRow ≤ b.bottomRow)
    (hc : b.leftCol ≤ b.rightCol) : ¬ a.inRect b.topRow b.leftCol := by
  intro hin
  exact h.not_both_inRect b.topRow b.leftCol
    ⟨hin, le_refl _, hr, le_refl _, hc⟩

theorem fillOne_rowLabels (df : Frame α) (mr : MergedRange) :
    (fillOne df mr).rowLabels = df.rowLabels := by
  unfold fillOne
  split
  · cases df.data mr.topRow mr.leftCol <;> rfl
  · rfl

theorem fillOne_colLabels (df : Frame α) (mr : MergedRange) :
    (fillOne df mr).colLabels = df.colLabels := by
  unfold fillOne
  split
  · cases df.data mr.topRow mr.leftCol <;> rfl
  · rfl

theorem FillMergedCells_rowLabels (ranges : List MergedRange) (df : Frame α) :
    (FillMergedCells ranges df).rowLabels = df.rowLabels := by
  induction ranges generalizing df with
  | nil => rfl
  | cons mr rs ih =>
    unfold FillMergedCells at ih ⊢
    simp only [List.foldl_cons]
    rw [ih, fillOne_rowLabels]

theorem FillMergedCells_colLabels (ranges : List MergedRange) (df : Frame α) :
    (FillMergedCells ranges df).colLabels = df.colLabels := by
  induction ranges generalizing df with
  | nil => rfl
  | cons mr rs ih =>
    unfold FillMergedCells at ih ⊢
    simp only [List.foldl_cons]
    rw [ih, fillOne_colLabels]

theorem fillOne_data_eq_of_not_inRect {mr : MergedRange} {r c : Nat}
    (df : Frame α) (h : ¬ mr.inRect r c) :
    (fillOne df mr).data r c = df.data r c := by
  unfold fillOne
  split
  · cases df.data mr.topRow mr.leftCol with
    | none => rfl
    | some v => simp only []; rw [if_neg (by tauto)]
  · rfl

theorem fillOne_data_of_fill {mr : MergedRange} {r c : Nat} {v : α}
    (df : Frame α)
    (ha : mr.topRow ∈ df.rowLabels ∧ mr.leftCol ∈ df.colLabels)
    (hv : df.data mr.topRow mr.leftCol = some v)
    (hc : mr.inRect r c ∧ r ∈ df.rowLabels ∧ c ∈ df.colLabels) :
    (fillOne df mr).data r c = some v := by
  unfold fillOne
  rw [if_pos ha, hv]
  simp only []
  rw [if_pos hc]

theorem fillOne_data_cases (df : Frame α) (mr : MergedRange) (r c : Nat) :
    (fillOne df mr).data r c = df.data r c ∨
    (mr.inRect r c ∧ r ∈ df.rowLabels ∧ c ∈ df.colLabels ∧
     mr.topRow ∈ df.rowLabels ∧ mr.leftCol ∈ df.colLabels ∧
     ∃ v, df.data mr.topRow mr.leftCol = some v ∧
       (fillOne df mr).data r c = some v) := by
  unfold fillOne
  split
  case isTrue ha =>
    cases hv : df.data mr.topRow mr.leftCol with
    | none => exact Or.inl rfl
    | some v =>
      simp only []
      by_cases hc : mr.inRect r c ∧ r ∈ df.rowLabels ∧ c ∈ df.colLabels
      · exact Or.inr ⟨hc.1, hc.2.1, hc.2.2, ha.1, ha.2, v, rfl, by rw [if_pos hc]⟩
      · exact Or.inl (by rw [if_neg hc])
  case isFalse => exact Or.inl rfl

theorem fillOne_data_ne_none {r c : Nat} (df : Frame α) (mr : MergedRange)
    (h : df.data r c ≠ none) : (fillOne df mr).data r c ≠ none := by
  rcases fillOne_data_cases df mr r c with heq | ⟨_, _, _, _, _, v, _, heq⟩ <;>
    rw [heq] <;> simp_all

theorem FillMergedCells_data_ne_none {r c : Nat} (ranges : List MergedRange)
    (df : Frame α) (h : df.data r c ≠ none) :
    (FillMergedCells ranges df).data r c ≠ none := by
  induction ranges generalizing df with
  | nil => exact h
  | cons mr rs ih =>
    unfold FillMergedCells at ih ⊢
    simp only [List.foldl_cons]
    exact ih (fillOne df mr) (fillOne_data_ne_none df mr h)

theorem MergedRange.inRect.nondeg {mr : MergedRange} {r c : Nat}
    (h : mr.inRect r c) :
    mr.topRow ≤ mr.bottomRow ∧ mr.leftCol ≤ mr.rightCol :=
  ⟨le_trans h.1 h.2.1, le_trans h.2.2.1 h.2.2.2⟩

theorem covers_iff {df : Frame α} {mr : MergedRange} {r c : Nat} :
    covers df mr r c = true ↔
      mr.inRect r c ∧ r ∈ df.rowLabels ∧ c ∈ df.colLabels ∧
      mr.topRow ∈ df.rowLabels ∧ mr.leftCol ∈ df.colLabels ∧
      (df.data mr.topRow mr.leftCol).isSome := by
  unfold covers
  simp [and_assoc]

theorem fillOne_data_eq_of_covers_false {mr : MergedRange} {r c : Nat}
    (df : Frame α) (h : covers df mr r c = false) :
    (fillOne df mr).data r c = df.data r c := by
  rcases fillOne_data_cases df mr r c with heq | ⟨h1, h2, h3, h4, h5, v, hv, _⟩
  · exact heq
  · exfalso
    have : covers df mr r c = true :=
      covers_iff.mpr ⟨h1, h2, h3, h4, h5, by rw [hv]; rfl⟩
    rw [h] at this
    exact Bool.false_ne_true this

theorem fillOne_data_eq_of_covers_true {mr : MergedRange} {r c : Nat}
    (df : Frame α) (h : covers df mr r c = true) :
    (fillOne df mr).data r c = df.data mr.topRow mr.leftCol := by
  obtain ⟨hin, hr, hc, har, hac, hs⟩ := covers_iff.mp h
  obtain ⟨v, hv⟩ := Option.isSome_iff_exists.mp hs
  rw [fillOne_data_of_fill df ⟨har, hac⟩ hv ⟨hin, hr, hc⟩, hv]

theorem covers_fillOne {mr mr' : MergedRange} (hsep : mr.SeparateFrom mr')
    (df : Frame α) (r c : Nat) :
    covers (fillOne df mr) mr' r c = covers df mr' r c := by
  by_cases hdeg : mr'.topRow ≤ mr'.bottomRow ∧ mr'.leftCol ≤ mr'.rightCol
  · unfold covers
    rw [fillOne_rowLabels, fillOne_colLabels,
      fillOne_data_eq_of_not_inRect df (hsep.anchor_not_inRect hdeg.1 hdeg.2)]
  · have hin : ¬ mr'.inRect r c := fun hx => hdeg hx.nondeg
    unfold covers
    rw [decide_eq_false hin]
    simp

theorem find?_congr {β : Type} {p q : β → Bool} :
    ∀ {l : List β}, (∀ x ∈ l, p x = q x) → l.find? p = l.find? q := by
  intro l
  induction l with
  | nil => intro _; rfl
  | cons a l ih =>
    intro h
    by_cases hqa : q a = true
    · rw [List.find?_cons_of_pos _ (by rw [h a (List.mem_cons_self a l)]; exact hqa),
        List.find?_cons_of_pos _ hqa]
    · rw [List.find?_cons_of_neg _ (by rw [h a (List.mem_cons_self a l)]; exact hqa),
        List.find?_cons_of_neg _ hqa]
      exact ih fun x hx => h x (List.mem_cons_of_mem a hx)

/-- Closed form of FillMergedCells on a list of pairwise separated merged
ranges: a cell receives the original anchor value of the first range that
writes it, and is unchanged when no range writes it. -/
theorem FillMergedCells_data_eq :
    ∀ (rs : List MergedRange) (df : Frame α),
    rs.Pairwise MergedRange.SeparateFrom → ∀ r c : Nat,
    (FillMergedCells rs df).data r c =
      match rs.find? (fun mr => covers df mr r c) with
      | some mr => df.data mr.topRow mr.leftCol
      | none => df.data r c := by
  intro rs
  induction rs with
  | nil => intro df _ r c; rfl
  | cons mr rs ih =>
    intro df hsep r c
    obtain ⟨hhead, htail⟩ := List.pairwise_cons.mp hsep
    show (FillMergedCells rs (fillOne df mr)).data r c = _
    rw [ih (fillOne df mr) htail r c]
    have hcong : ∀ x ∈ rs, covers (fillOne df mr) x r c = covers df x r c :=
      fun x hx => covers_fillOne (hhead x hx) df r c
    rw [find?_congr hcong]
    by_cases hcov : covers df mr r c = true
    · have hf : List.find? (fun x => covers df x r c) (mr :: rs) = some mr :=
        List.find?_cons_of_pos rs hcov
      rw [hf]
      have hnone : rs.find? (fun x => covers df x r c) = none := by
        rw [List.find?_eq_none]
        intro x hx hpx
        exact (hhead x hx).not_both_inRect r c
          ⟨(covers_iff.mp hcov).1, (covers_iff.mp hpx).1⟩
      rw [hnone]
      exact fillOne_data_eq_of_covers_true df hcov
    · have hf : List.find? (fun x => covers df x r c) (mr :: rs) =
          List.find? (fun x => covers df x r c) rs :=
        List.find?_cons_of_neg rs hcov
      rw [hf]
      cases hfind : rs.find? (fun x => covers df x r c) with
      | none =>
        exact fillOne_data_eq_of_covers_false df (by simpa using hcov)
      | some x =>
        have hx : x ∈ rs := List.mem_of_find?_eq_some hfind
        have hp0 := List.find?_some hfind
        have hpx := covers_iff.mp hp0
        obtain ⟨hnr, hnc⟩ := hpx.1.nondeg
        exact fillOne_data_eq_of_not_inRect df
          ((hhead x hx).anchor_not_inRect hnr hnc)

theorem sep_symmetric : Symmetric MergedRange.SeparateFrom :=
  fun _ _ h => h.symm

/-- On pairwise separated ranges the anchor cell of a non-degenerate range of
the list keeps its original value through FillMergedCells. -/
theorem FillMergedCells_anchor_stable {mr : MergedRange}
    (rs : List MergedRange) (hsep : rs.Pairwise MergedRange.SeparateFrom)
    (hmr : mr ∈ rs) (hnr : mr.topRow ≤ mr.bottomRow)
    (hnc : mr.leftCol ≤ mr.rightCol) (df : Frame α) :
    (FillMergedCells rs df).data mr.topRow mr.leftCol =
      df.data mr.topRow mr.leftCol := by
  rw [FillMergedCells_data_eq rs df hsep mr.topRow mr.leftCol]
  cases hfind : rs.find? (fun x => covers df x mr.topRow mr.leftCol) with
  | none => rfl
  | some x =>
    have hx : x ∈ rs := List.mem_of_find?_eq_some hfind
    have hp0 := List.find?_some hfind
    have hpx := covers_iff.mp hp0
    by_cases hxm : x = mr
    · rw [hxm]
    · exfalso
      have hsepxm := (hsep.forall sep_symmetric) hx hmr hxm
      exact hsepxm.not_both_inRect mr.topRow mr.leftCol
        ⟨hpx.1, le_refl _, hnr, le_refl _, hnc⟩

theorem covers_FillMergedCells {mr : MergedRange} (rs : List MergedRange)
    (hsep : rs.Pairwise MergedRange.SeparateFrom) (hmr : mr ∈ rs)
    (df : Frame α) (r c : Nat) :
    covers (FillMergedCells rs df) mr r c = covers df mr r c := by
  by_cases hin : mr.inRect r c
  · obtain ⟨hnr, hnc⟩ := hin.nondeg
    unfold covers
    rw [FillMergedCells_rowLabels, FillMergedCells_colLabels,
      FillMergedCells_anchor_stable rs hsep hmr hnr hnc df]
  · unfold covers
    rw [decide_eq_false hin]
    simp

theorem Frame.ext_of {f g : Frame α} (h1 : f.rowLabels = g.rowLabels)
    (h2 : f.colLabels = g.colLabels) (h3 : ∀ r c, f.data r c = g.data r c) :
    f = g := by
  obtain ⟨a, b, d⟩ := f
  obtain ⟨a', b', d'⟩ := g
  simp only [] at h1 h2 h3
  subst h1
  subst h2
  have : d = d' := funext fun r => funext fun c => h3 r c
  rw [this]

/-- C4 counterexample: FillMergedCells is NOT idempotent on every frame and
range list.  With the overlapping ranges [⟨1,2,0,0⟩, ⟨0,1,0,0⟩] over a
one-column frame whose only value sits at (0,0), the first pass skips the
first range (its anchor (1,0) is null) and then fills (1,0); the second pass
finds the anchor (1,0) non-null and additionally fills (2,0), so running the
resolver twice differs from running it once at cell (2,0). -/
theorem FillMergedCells_not_idempotent :
    (FillMergedCells [⟨1, 2, 0, 0⟩, ⟨0, 1, 0, 0⟩]
      (FillMergedCells [⟨1, 2, 0, 0⟩, ⟨0, 1, 0, 0⟩]
        (⟨[0, 1, 2], [0],
          fun r c => if r = 0 ∧ c = 0 then some 1 else none⟩ : Frame Nat))).data
        2 0 ≠
    (FillMergedCells [⟨1, 2, 0, 0⟩, ⟨0, 1, 0, 0⟩]
      (⟨[0, 1, 2], [0],
        fun r c => if r = 0 ∧ c = 0 then some 1 else none⟩ : Frame Nat)).data
        2 0 := by
  decide

/-- C4 (amended): for every frame and every list of pairwise separated merged
ranges (as real worksheets produce: no two merged rectangles overlap),
FillMergedCells is idempotent: applying it twice yields the same result as
applying it once. -/
theorem FillMergedCells_idem (rs : List MergedRange)
    (hsep : rs.Pairwise MergedRange.SeparateFrom) (df : Frame α) :
    FillMergedCells rs (FillMergedCells rs df) = FillMergedCells rs df := by
  apply Frame.ext_of
  · rw [FillMergedCells_rowLabels]
  · rw [FillMergedCells_colLabels]
  · intro r c
    rw [FillMergedCells_data_eq rs (FillMergedCells rs df) hsep r c]
    rw [find?_congr (fun x hx => covers_FillMergedCells rs hsep hx df r c)]
    cases hfind : rs.find? (fun x => covers df x r c) with
    | none => rfl
    | some x =>
      have hx : x ∈ rs := List.mem_of_find?_eq_some hfind
      have hp0 := List.find?_some hfind
      have hpx := covers_iff.mp hp0
      obtain ⟨hnr, hnc⟩ := hpx.1.nondeg
      show (FillMergedCells rs df).data x.topRow x.leftCol =
        (FillMergedCells rs df).data r c
      rw [FillMergedCells_anchor_stable rs hsep hx hnr hnc df]
      rw [FillMergedCells_data_eq rs df hsep r c, hfind]

/-- Witness for C4 (amended) at a concrete separated range list and frame. -/
theorem FillMergedCells_idem_witness :
    List.Pairwise MergedRange.SeparateFrom [(⟨0, 1, 0, 0⟩ : MergedRange)] ∧
    FillMergedCells [⟨0, 1, 0, 0⟩]
      (FillMergedCells [⟨0, 1, 0, 0⟩]
        (⟨[0, 1], [0],
          fun r c => if r = 0 ∧ c = 0 then some 1 else none⟩ : Frame Nat)) =
    FillMergedCells [⟨0, 1, 0, 0⟩]
      (⟨[0, 1], [0],
        fun r c => if r = 0 ∧ c = 0 then some 1 else none⟩ : Frame Nat) :=
  ⟨by simp, FillMergedCells_idem _ (by simp) _⟩

/-- C5 counterexample: a merged range of the input list whose anchor value is
null does NOT always keep all its cells unchanged.  With the overlapping
ranges [⟨1,2,0,0⟩, ⟨0,1,0,0⟩], the first range's anchor (1,0) is null, yet
cell (1,0) inside that range is changed by the second, overlapping range. -/
theorem FillMergedCells_skipped_anchor_counterexample :
    (⟨1, 2, 0, 0⟩ : MergedRange) ∈ [(⟨1, 2, 0, 0⟩ : MergedRange), ⟨0, 1, 0, 0⟩] ∧
    (⟨[0, 1, 2], [0],
      fun r c => if r = 0 ∧ c = 0 then some 1 else none⟩ : Frame Nat).data 1 0 =
      none ∧
    MergedRange.inRect ⟨1, 2, 0, 0⟩ 1 0 ∧
    (FillMergedCells [⟨1, 2, 0, 0⟩, ⟨0, 1, 0, 0⟩]
      (⟨[0, 1, 2], [0],
        fun r c => if r = 0 ∧ c = 0 then some 1 else none⟩ : Frame Nat)).data
        1 0 ≠
    (⟨[0, 1, 2], [0],
      fun r c => if r = 0 ∧ c = 0 then some 1 else none⟩ : Frame Nat).data 1 0 := by
  decide

/-- C5 (amended): over a list of pairwise separated merged ranges (as real
worksheets produce), a range whose anchor cell is absent from the frame's
labels or holds a null value contributes nothing: every cell inside its
rectangle is left unchanged by FillMergedCells (in particular a null
non-anchor cell remains null). -/
theorem FillMergedCells_skipped_range_unchanged (mr : MergedRange)
    (rs : List MergedRange) (hsep : rs.Pairwise MergedRange.SeparateFrom)
    (hmr : mr ∈ rs) (df : Frame α)
    (hskip : ¬ (mr.topRow ∈ df.rowLabels ∧ mr.leftCol ∈ df.colLabels) ∨
      df.data mr.topRow mr.leftCol = none)
    (r c : Nat) (hrc : mr.inRect r c) :
    (FillMergedCells rs df).data r c = df.data r c := by
  rw [FillMergedCells_data_eq rs df hsep r c]
  have hnone : rs.find? (fun x => covers df x r c) = none := by
    rw [List.find?_eq_none]
    intro x hx hpx
    have hp := covers_iff.mp hpx
    by_cases hxm : x = mr
    · subst hxm
      rcases hskip with h | h
      · exact h ⟨hp.2.2.2.1, hp.2.2.2.2.1⟩
      · rw [h] at hp
        exact Bool.false_ne_true hp.2.2.2.2.2
    · exact ((hsep.forall sep_symmetric) hx hmr hxm).not_both_inRect r c
        ⟨hp.1, hrc⟩
  rw [hnone]

/-- Witness for C5 (amended): range {topRow 0, bottomRow 2, leftCol 0,
rightCol 0} with row 0 skipped (row labels [1, 2]) leaves the null cells at
rows 1 and 2 of column 0 unchanged, hence null. -/
theorem FillMergedCells_skipped_range_unchanged_witness :
    (FillMergedCells [⟨0, 2, 0, 0⟩]
      (⟨[1, 2], [0], fun _ _ => none⟩ : Frame Nat)).data 1 0 =
      (⟨[1, 2], [0], fun _ _ => none⟩ : Frame Nat).data 1 0 ∧
    (FillMergedCells [⟨0, 2, 0, 0⟩]
      (⟨[1, 2], [0], fun _ _ => none⟩ : Frame Nat)).data 2 0 =
      (⟨[1, 2], [0], fun _ _ => none⟩ : Frame Nat).data 2 0 :=
  ⟨FillMergedCells_skipped_range_unchanged ⟨0, 2, 0, 0⟩ [⟨0, 2, 0, 0⟩]
      (by simp) (by decide) _ (Or.inl (by decide)) 1 0 (by decide),
    FillMergedCells_skipped_range_unchanged ⟨0, 2, 0, 0⟩ [⟨0, 2, 0, 0⟩]
      (by simp) (by decide) _ (Or.inl (by decide)) 2 0 (by decide)⟩

/-- C10: FillMergedCells preserves the frame's row labels, row order, column
labels and column order, and changes only cells lying inside some merged
range of the list whose anchor cell is at present labels and is non-null in
the resulting frame. -/
theorem FillMergedCells_frame_effect (rs : List MergedRange) (df : Frame α) :
    (FillMergedCells rs df).rowLabels = df.rowLabels ∧
    (FillMergedCells rs df).colLabels = df.colLabels ∧
    ∀ r c, (FillMergedCells rs df).data r c ≠ df.data r c →
      ∃ mr ∈ rs, mr.inRect r c ∧ mr.topRow ∈ df.rowLabels ∧
        mr.leftCol ∈ df.colLabels ∧
        (FillMergedCells rs df).data mr.topRow mr.leftCol ≠ none := by
  refine ⟨FillMergedCells_rowLabels rs df, FillMergedCells_colLabels rs df, ?_⟩
  induction rs generalizing df with
  | nil => intro r c hne; exact absurd rfl hne
  | cons mr rs ih =>
    intro r c hne
    have hstep : FillMergedCells (mr :: rs) df =
        FillMergedCells rs (fillOne df mr) := rfl
    rw [hstep] at hne ⊢
    by_cases h1 : (FillMergedCells rs (fillOne df mr)).data r c =
        (fillOne df mr).data r c
    · rcases fillOne_data_cases df mr r c with heq | ⟨hin, hr, hc, har, hac, v, hv, hfv⟩
      · exact absurd (by rw [h1, heq]) hne
      · refine ⟨mr, List.mem_cons_self mr rs, hin, har, hac, ?_⟩
        apply FillMergedCells_data_ne_none
        rw [fillOne_data_of_fill df ⟨har, hac⟩ hv
          ⟨⟨le_refl _, hin.nondeg.1, le_refl _, hin.nondeg.2⟩, har, hac⟩]
        simp
    · obtain ⟨mr', hmem, hin, har, hac, hnn⟩ := ih (fillOne df mr) r c h1
      rw [fillOne_rowLabels] at har
      rw [fillOne_colLabels] at hac
      exact ⟨mr', List.mem_cons_of_mem mr hmem, hin, har, hac, hnn⟩

/-- Witness for C10 at a concrete frame and range list in which a cell does
change. -/
theorem FillMergedCells_frame_effect_witness :
    ∃ mr ∈ [(⟨0, 1, 0, 0⟩ : MergedRange)], mr.inRect 1 0 ∧
      mr.topRow ∈ [0, 1] ∧ mr.leftCol ∈ [0] ∧
      (FillMergedCells [⟨0, 1, 0, 0⟩]
        (⟨[0, 1], [0],
          fun r c => if r = 0 ∧ c = 0 then some 1 else none⟩ : Frame Nat)).data
          mr.topRow mr.leftCol ≠ none :=
  (FillMergedCells_frame_effect [⟨0, 1, 0, 0⟩]
    (⟨[0, 1], [0],
      fun r c => if r = 0 ∧ c = 0 then some 1 else none⟩ : Frame Nat)).2.2 1 0
    (by decide)

theorem reindexRows_count_getElem? (n len k : Nat) (hk : k < len) :
    (reindexRows (.count n) len)[k]? = some (n + k) := by
  simp [reindexRows, hk, Nat.add_comm]

theorem reindexRows_count_length (n len : Nat) :
    (reindexRows (.count n) len).length = len := by
  simp [reindexRows]

theorem reindexRows_positions_mem (S : List Nat) (len x : Nat) :
    x ∈ reindexRows (.positions S) len ↔ x < len + S.length ∧ x ∉ S := by
  simp [reindexRows, List.mem_filter, List.mem_range]

theorem reindexRows_positions_sorted (S : List Nat) (len : Nat) :
    List.Sorted (· < ·) (reindexRows (.positions S) len) :=
  List.Pairwise.filter _ (List.sorted_lt_range _)

theorem reindexRows_positions_length (S : List Nat) (len : Nat)
    (hS : S.Nodup) (hb : ∀ x ∈ S, x < len + S.length) :
    (reindexRows (.positions S) len).length = len := by
  have hnodup : (reindexRows (.positions S) len ++ S).Nodup := by
    apply List.Nodup.append ((List.nodup_range _).filter _) hS
    intro a haL haS
    exact ((reindexRows_positions_mem S len a).mp haL).2 haS
  have hperm : List.Perm (reindexRows (.positions S) len ++ S)
      (List.range (len + S.length)) := by
    apply (List.perm_ext_iff_of_nodup hnodup (List.nodup_range _)).mpr
    intro a
    simp only [List.mem_append, reindexRows_positions_mem, List.mem_range]
    constructor
    · rintro (⟨h1, _⟩ | h)
      · exact h1
      · exact hb a h
    · intro ha
      by_cases hmem : a ∈ S
      · exact Or.inr hmem
      · exact Or.inl ⟨ha, hmem⟩
  have hlen := hperm.length_eq
  rw [List.length_append, List.length_range] at hlen
  omega

/-- C3: after the row-relabeling step, a count n labels the k-th surviving
row with the sheet-native position n + k (a contiguous tail n, n+1, ...);
an explicit skip set S labels the surviving rows, in ascending order, with
exactly the positions of [0, len + card S) that are not in S — so the k-th
surviving row gets the k-th smallest non-member — and produces one label per
surviving row. -/
theorem reindexRows_spec (n len : Nat) (S : List Nat) (hS : S.Nodup)
    (hb : ∀ x ∈ S, x < len + S.length) :
    ((reindexRows (.count n) len).length = len ∧
      ∀ k, k < len → (reindexRows (.count n) len)[k]? = some (n + k)) ∧
    ((reindexRows (.positions S) len).length = len ∧
      List.Sorted (· < ·) (reindexRows (.positions S) len) ∧
      ∀ x, x ∈ reindexRows (.positions S) len ↔ x < len + S.length ∧ x ∉ S) :=
  ⟨⟨reindexRows_count_length n len,
      fun k hk => reindexRows_count_getElem? n len k hk⟩,
    reindexRows_positions_length S len hS hb,
    reindexRows_positions_sorted S len,
    fun x => reindexRows_positions_mem S len x⟩

/-- Witness for C3: a 10-row sheet with rowsToSkip = [0, 3] keeps 8 rows and
labels them 1, 2, 4, 5, 6, 7, 8, 9 in that order; a count 2 labels the first
surviving row 2. -/
theorem reindexRows_spec_witness :
    reindexRows (.positions [0, 3]) 8 = [1, 2, 4, 5, 6, 7, 8, 9] ∧
    (reindexRows (.positions [0, 3]) 8).length = 8 ∧
    (reindexRows (.count 2) 8)[0]? = some 2 :=
  ⟨by decide,
    (reindexRows_spec 2 8 [0, 3] (by decide) (by decide)).2.1,
    (reindexRows_spec 2 8 [0, 3] (by decide) (by decide)).1.2 0 (by decide)⟩

theorem lookupTable_to_sql_self (s : Store) (nm : String) (hdr : List String)
    (rows : List (List (Option String))) :
    lookupTable (to_sql s nm hdr rows) nm =
      some (match lookupTable s nm with
            | some t => ⟨t.header, t.rows ++ rows⟩
            | none => ⟨hdr, rows⟩) := by
  induction s with
  | nil => simp [to_sql, lookupTable]
  | cons p s ih =>
    by_cases h : p.1 == nm
    · simp [to_sql, lookupTable, h]
    · simp only [to_sql, h, Bool.false_eq_true, if_false, lookupTable, ih]

theorem lookupTable_to_sql_other (s : Store) (nm m : String)
    (hdr : List String) (rows : List (List (Option String))) (h : m ≠ nm) :
    lookupTable (to_sql s nm hdr rows) m = lookupTable s m := by
  induction s with
  | nil =>
    simp only [to_sql, lookupTable]
    rw [if_neg]
    simp only [beq_iff_eq]
    exact fun e => h e.symm
  | cons p s ih =>
    by_cases hp : p.1 == nm
    · have hpm : ¬ (p.1 == m) = true := by
        simp only [beq_iff_eq] at hp ⊢
        rw [hp]
        exact fun e => h e.symm
      simp [to_sql, lookupTable, hp, hpm]
    · by_cases hm : p.1 == m
      · simp [to_sql, lookupTable, hp, hm]
      · simp [to_sql, lookupTable, hp, hm, ih]

/-- C1 counterexample: a CSV file consisting of a single header line and no
data rows does not fail: read_csv succeeds with zero data rows (pandas only
raises EmptyDataError when it finds no columns at all), and ImportCSV then
creates the destination table, empty, in a store that did not contain it. -/
theorem ImportCSV_header_only_counterexample :
    (ImportCSV [] "T" ["Name,Age"]).1 ≠ some ImportError.EmptySource ∧
    (ImportCSV [] "T" ["Name,Age"]).1 = none ∧
    lookupTable (ImportCSV [] "T" ["Name,Age"]).2 "T" =
      some ⟨["Name", "Age"], []⟩ := by
  decide

/-- C1 (amended): ImportCSV fails with EmptySource, leaving the store (and in
particular the destination table) unchanged, exactly when the file contains
no non-blank line at all (zero-byte or fully empty file); a file containing
only a header line (optionally followed by blank lines) instead succeeds
with zero data rows, creating the destination table if absent. -/
theorem ImportCSV_emptySource_iff (store : Store) (nm : String)
    (lines : List String) :
    ((ImportCSV store nm lines).1 = some ImportError.EmptySource ↔
      lines.filter (fun l => !(l == "")) = []) ∧
    (lines.filter (fun l => !(l == "")) = [] →
      (ImportCSV store nm lines).2 = store) ∧
    (∀ h, lines.filter (fun l => !(l == "")) = [h] →
      (ImportCSV store nm lines).1 = none ∧
      lookupTable (ImportCSV store nm lines).2 nm =
        some (match lookupTable store nm with
              | some t => t
              | none => ⟨splitFields h, []⟩)) := by
  refine ⟨?_, ?_, ?_⟩
  · constructor
    · intro he
      cases hf : lines.filter (fun l => !(l == "")) with
      | nil => rfl
      | cons h t =>
        unfold ImportCSV read_csv at he
        rw [hf] at he
        simp at he
    · intro hf
      unfold ImportCSV read_csv
      rw [hf]
  · intro hf
    unfold ImportCSV read_csv
    rw [hf]
  · intro h hf
    unfold ImportCSV read_csv
    rw [hf]
    simp only []
    refine ⟨trivial, ?_⟩
    rw [lookupTable_to_sql_self]
    cases lookupTable store nm with
    | none => simp
    | some t => simp

/-- Witness for C1 (amended) at a zero-byte file and at a header-only file. -/
theorem ImportCSV_emptySource_iff_witness :
    ((ImportCSV [] "T" ([] : List String)).1 = some ImportError.EmptySource ↔
      ([] : List String).filter (fun l => !(l == "")) = []) ∧
    (ImportCSV [] "T" ([] : List String)).2 = [] ∧
    ((ImportCSV [] "T" ["Name,Age"]).1 = none ∧
      lookupTable (ImportCSV [] "T" ["Name,Age"]).2 "T" =
        some ⟨["Name", "Age"], []⟩) :=
  ⟨(ImportCSV_emptySource_iff [] "T" []).1,
    (ImportCSV_emptySource_iff [] "T" []).2.1 (by decide),
    by
      have hw := (ImportCSV_emptySource_iff [] "T" ["Name,Age"]).2.2
        "Name,Age" (by decide)
      exact ⟨hw.1, by rw [hw.2]; decide⟩⟩

theorem ImportExcel_ok (store : Store) (nm : String) (dbCols : List String)
    (sheet : List (List (Option String))) (rs : RowSkip)
    (ci : Option (List Nat)) (fill : Bool) (merged : List MergedRange)
    (h : (ImportExcel store nm dbCols sheet rs ci fill merged).1 = none) :
    ∃ rows, ImportExcel store nm dbCols sheet rs ci fill merged =
      (none, to_sql store nm dbCols rows) := by
  by_cases hc1 : excelCondMismatch dbCols ci = true
  · unfold ImportExcel at h
    rw [if_pos hc1] at h
    simp at h
  · unfold ImportExcel at h ⊢
    rw [if_neg hc1] at h ⊢
    cases hfr : excelFrameRows dbCols sheet rs ci fill merged with
    | none =>
      rw [hfr] at h
      simp at h
    | some rows =>
      exact ⟨rows, rfl⟩

/-- C2 counterexample: on the sheet [[Name, Age], [Alice, 30], [Bob, 25]]
with rowsToSkip = 0, no merges and output column names [Name, Age], the
pipeline appends THREE rows — with header None and zero rows skipped the
header line is imported as a literal data row — so the resulting table is
not the claimed 2-row table. -/
theorem ImportExcel_skip0_counterexample :
    ImportExcel [] "T" ["Name", "Age"]
      [[some "Name", some "Age"], [some "Alice", some "30"],
        [some "Bob", some "25"]] (.count 0) none false [] =
      (none, [("T", ⟨["Name", "Age"],
        [[some "Name", some "Age"], [some "Alice", some "30"],
          [some "Bob", some "25"]]⟩)]) ∧
    lookupTable (ImportExcel [] "T" ["Name", "Age"]
      [[some "Name", some "Age"], [some "Alice", some "30"],
        [some "Bob", some "25"]] (.count 0) none false []).2 "T" ≠
      some ⟨["Name", "Age"],
        [[some "Alice", some "30"], [some "Bob", some "25"]]⟩ := by
  decide

/-- C2 (amended): to obtain exactly the 2-row table [{Name: Alice, Age: 30},
{Name: Bob, Age: 25}] from that sheet, the header row must be skipped
explicitly with rowsToSkip = 1; the pipeline then appends exactly those two
rows, in order, under the caller-supplied column names. -/
theorem ImportExcel_skip1_two_rows :
    ImportExcel [] "T" ["Name", "Age"]
      [[some "Name", some "Age"], [some "Alice", some "30"],
        [some "Bob", some "25"]] (.count 1) none false [] =
      (none, [("T", ⟨["Name", "Age"],
        [[some "Alice", some "30"], [some "Bob", some "25"]]⟩)]) := by
  decide

/-- C8: when columnsToImport is given with a length different from the
output column names, ImportSpreadsheet fails with ColumnCountMismatch, the
store is untouched, and the outcome is independent of the spreadsheet file
contents (sheet and merged ranges): no file data is consulted. -/
theorem ImportExcel_column_mismatch (store : Store) (nm : String)
    (dbCols : List String) (sheet : List (List (Option String)))
    (rs : RowSkip) (l : List Nat) (fill : Bool) (merged : List MergedRange)
    (h : dbCols.length ≠ l.length) :
    ImportExcel store nm dbCols sheet rs (some l) fill merged =
      (some .ColumnCountMismatch, store) ∧
    ∀ sheet2 merged2,
      ImportExcel store nm dbCols sheet2 rs (some l) fill merged2 =
        (some .ColumnCountMismatch, store) := by
  have hc : excelCondMismatch dbCols (some l) = true := by
    unfold excelCondMismatch
    exact decide_eq_true h
  constructor
  · unfold ImportExcel
    rw [if_pos hc]
  · intro sheet2 merged2
    unfold ImportExcel
    rw [if_pos hc]

/-- Witness for C8 at the specification's concrete scenario: two output
names for three requested columns. -/
theorem ImportExcel_column_mismatch_witness :
    ImportExcel [] "T" ["A", "B"] [] (.count 0) (some [0, 1, 2]) false [] =
      (some .ColumnCountMismatch, []) ∧
    ∀ sheet2 merged2,
      ImportExcel [] "T" ["A", "B"] sheet2 (.count 0) (some [0, 1, 2]) false
        merged2 = (some .ColumnCountMismatch, []) :=
  ImportExcel_column_mismatch [] "T" ["A", "B"] [] (.count 0) [0, 1, 2]
    false [] (by decide)

/-- C9: on success each import pipeline appends its parsed rows to the
destination table of the store, creating the table when absent; an existing
table keeps all its prior rows (they stay, in order, at the front of the
result) and every other table is untouched. -/
theorem imports_append_only (store : Store) (nm : String)
    (lines : List String) (dbCols : List String)
    (sheet : List (List (Option String))) (rs : RowSkip)
    (ci : Option (List Nat)) (fill : Bool) (merged : List MergedRange) :
    ((ImportCSV store nm lines).1 = none →
      ∃ hdr rows, read_csv lines = some (hdr, rows) ∧
        lookupTable (ImportCSV store nm lines).2 nm =
          some (match lookupTable store nm with
                | some t => ⟨t.header, t.rows ++ rows⟩
                | none => ⟨hdr, rows⟩) ∧
        ∀ m, m ≠ nm →
          lookupTable (ImportCSV store nm lines).2 m = lookupTable store m) ∧
    ((ImportExcel store nm dbCols sheet rs ci fill merged).1 = none →
      ∃ rows,
        lookupTable (ImportExcel store nm dbCols sheet rs ci fill merged).2
            nm =
          some (match lookupTable store nm with
                | some t => ⟨t.header, t.rows ++ rows⟩
                | none => ⟨dbCols, rows⟩) ∧
        ∀ m, m ≠ nm →
          lookupTable (ImportExcel store nm dbCols sheet rs ci fill
            merged).2 m = lookupTable store m) := by
  constructor
  · intro h1
    cases hr : read_csv lines with
    | none =>
      unfold ImportCSV at h1
      rw [hr] at h1
      simp at h1
    | some pr =>
      obtain ⟨hdr, rows⟩ := pr
      have hstep : ImportCSV store nm lines =
          (none, to_sql store nm hdr rows) := by
        unfold ImportCSV
        rw [hr]
      refine ⟨hdr, rows, rfl, ?_, ?_⟩
      · rw [hstep]
        exact lookupTable_to_sql_self store nm hdr rows
      · intro m hm
        rw [hstep]
        exact lookupTable_to_sql_other store nm m hdr rows hm
  · intro h1
    obtain ⟨rows, hstep⟩ :=
      ImportExcel_ok store nm dbCols sheet rs ci fill merged h1
    refine ⟨rows, ?_, ?_⟩
    · rw [hstep]
      exact lookupTable_to_sql_self store nm dbCols rows
    · intro m hm
      rw [hstep]
      exact lookupTable_to_sql_other store nm m dbCols rows hm

/-- Witness for C9 at a concrete CSV file and sheet, appending to a store
that already holds one row in the destination table and one other table. -/
theorem imports_append_only_witness :
    ((ImportCSV [("T", ⟨["A"], [[some "0"]]⟩), ("U", ⟨["B"], []⟩)] "T"
        ["A", "1"]).1 = none →
      ∃ hdr rows, read_csv ["A", "1"] = some (hdr, rows) ∧
        lookupTable (ImportCSV [("T", ⟨["A"], [[some "0"]]⟩),
            ("U", ⟨["B"], []⟩)] "T" ["A", "1"]).2 "T" =
          some (match lookupTable [("T", ⟨["A"], [[some "0"]]⟩),
                ("U", ⟨["B"], []⟩)] "T" with
                | some t => ⟨t.header, t.rows ++ rows⟩
                | none => ⟨hdr, rows⟩) ∧
        ∀ m, m ≠ "T" →
          lookupTable (ImportCSV [("T", ⟨["A"], [[some "0"]]⟩),
              ("U", ⟨["B"], []⟩)] "T" ["A", "1"]).2 m =
            lookupTable [("T", ⟨["A"], [[some "0"]]⟩),
              ("U", ⟨["B"], []⟩)] m) ∧
    ((ImportExcel [("T", ⟨["A"], [[some "0"]]⟩), ("U", ⟨["B"], []⟩)] "T"
        ["A"] [[some "7"]] (.count 0) none false []).1 = none →
      ∃ rows,
        lookupTable (ImportExcel [("T", ⟨["A"], [[some "0"]]⟩),
            ("U", ⟨["B"], []⟩)] "T" ["A"] [[some "7"]] (.count 0) none false
            []).2 "T" =
          some (match lookupTable [("T", ⟨["A"], [[some "0"]]⟩),
                ("U", ⟨["B"], []⟩)] "T" with
                | some t => ⟨t.header, t.rows ++ rows⟩
                | none => ⟨["A"], rows⟩) ∧
        ∀ m, m ≠ "T" →
          lookupTable (ImportExcel [("T", ⟨["A"], [[some "0"]]⟩),
              ("U", ⟨["B"], []⟩)] "T" ["A"] [[some "7"]] (.count 0) none
              false []).2 m =
            lookupTable [("T", ⟨["A"], [[some "0"]]⟩),
              ("U", ⟨["B"], []⟩)] m) :=
  imports_append_only [("T", ⟨["A"], [[some "0"]]⟩), ("U", ⟨["B"], []⟩)]
    "T" ["A", "1"] ["A"] [[some "7"]] (.count 0) none false []

theorem lookupConn_any {reg : Registry} {k : String} {c : DBConnection}
    (h : lookupConn reg k = some c) :
    reg.any (fun p => p.1 == k) = true := by
  induction reg with
  | nil => simp [lookupConn] at h
  | cons p s ih =>
    by_cases hp : (p.1 == k) = true
    · simp [List.any_cons, hp]
    · unfold lookupConn at h
      rw [if_neg hp] at h
      simp [List.any_cons, hp, ih h]

/-- C6: calling Connect with a key that is already registered fails with
DuplicateKey and leaves the registry unchanged; in particular the first
connection stored under that key is still there, untouched. -/
theorem Connect_duplicate_key (reg : Registry) (key path : String)
    (probeOk : Bool) (c : DBConnection) (h : lookupConn reg key = some c) :
    Connect reg key path probeOk = (some .DuplicateKey, reg) ∧
    lookupConn (Connect reg key path probeOk).2 key = some c := by
  have hc : Connect reg key path probeOk = (some .DuplicateKey, reg) := by
    unfold Connect
    rw [if_pos (lookupConn_any h)]
  exact ⟨hc, by rw [hc]; exact h⟩

/-- Witness for C6 at a registry already holding the key. -/
theorem Connect_duplicate_key_witness :
    Connect [("k", ⟨"k", ""⟩)] "k" "" true =
      (some .DuplicateKey, [("k", ⟨"k", ""⟩)]) ∧
    lookupConn (Connect [("k", ⟨"k", ""⟩)] "k" "" true).2 "k" =
      some ⟨"k", ""⟩ :=
  Connect_duplicate_key [("k", ⟨"k", ""⟩)] "k" "" true ⟨"k", ""⟩ (by decide)

/-- C7: Connect is atomic: whenever it reports any error (duplicate key,
unsupported extension, or engine/probe failure) the registry is exactly what
it was before the call, and a key that was not registered is still not
registered. -/
theorem Connect_atomic (reg : Registry) (key path : String) (probeOk : Bool)
    (e : ConnectError) (h : (Connect reg key path probeOk).1 = some e) :
    (Connect reg key path probeOk).2 = reg ∧
    (lookupConn reg key = none →
      lookupConn (Connect reg key path probeOk).2 key = none) := by
  have h2 : (Connect reg key path probeOk).2 = reg := by
    unfold Connect at h ⊢
    by_cases h1 : reg.any (fun p => p.1 == key) = true
    · rw [if_pos h1]
    · rw [if_neg h1] at h ⊢
      by_cases hext : (path == "" || path.endsWith ".mdb" ||
          path.endsWith ".accdb") = true
      · rw [if_pos hext] at h ⊢
        by_cases hp : probeOk = true
        · rw [if_pos hp] at h
          simp at h
        · rw [if_neg hp]
      · rw [if_neg hext]
  exact ⟨h2, fun hn => by rw [h2]; exact hn⟩

/-- Witness for C7 at a failing probe on an empty registry. -/
theorem Connect_atomic_witness :
    (Connect [] "k" "" false).2 = [] ∧
    (lookupConn [] "k" = none →
      lookupConn (Connect [] "k" "" false).2 "k" = none) :=
  Connect_atomic [] "k" "" false .ConnectionFailed (by decide)

end AccessMcp
